import Mathlib

/-!
# Verification of the Mern-Chat presence + message-synchronization core

Shallow embedding of the presence registry and connection handlers of
`src/server/server.js` and of the client sync engine of
`src/client/src/context/ChatContext.jsx`, with theorems settling the
claims about them.

JavaScript plain objects used as string-keyed maps (`userSocketMap`,
`unseenMessages`, `messageCache`) are embedded as association lists
`List (String × α)`: property assignment on an existing key updates the
entry in place, assignment of a fresh key appends it (JS insertion-order
semantics for non-integer keys), `delete` removes the entry, and
`Object.keys` lists the keys in order.
-/

namespace MernChat

/-- `obj[k]`: lookup of a string key in a JS object, `none` = `undefined`. -/
def objGet {α : Type} : List (String × α) → String → Option α
  | [], _ => none
  | p :: rest, k => if p.1 = k then some p.2 else objGet rest k

/-- `obj[k] = v` / `{ ...obj, [k]: v }`: overwrite the entry in place if
the key is present (a JS object holds at most one entry per key), append
otherwise. -/
def objSet {α : Type} : List (String × α) → String → α → List (String × α)
  | [], k, v => [(k, v)]
  | p :: rest, k, v => if p.1 = k then (k, v) :: rest else p :: objSet rest k v

/-- `delete obj[k]`. -/
def objDelete {α : Type} : List (String × α) → String → List (String × α)
  | [], _ => []
  | p :: rest, k => if p.1 = k then objDelete rest k else p :: objDelete rest k

/-- `Object.keys(obj)`. -/
def objKeys {α : Type} (m : List (String × α)) : List String :=
  m.map (fun p => p.1)

/-! ## Server: presence registry (`src/server/server.js`)

`userSocketMap` maps a user id to the socket id of its live connection.
-/

/-- The registration step of the connection handler (line 65):
`userSocketMap[userId] = socket.id`.  A bare assignment statement: the
entry's previous value is never read — it is overwritten and discarded. -/
def register (m : List (String × String)) (userId socketId : String) :
    List (String × String) :=
  objSet m userId socketId

/-- Lines 64–68 of `server.js`: if `userId` is truthy, register the socket
and broadcast `Object.keys(userSocketMap)` to everyone
(`io.emit("getOnlineUsers", ...)`).  Result: the new map and the broadcast
payload, if one was emitted. -/
def onConnection (m : List (String × String)) (userId socketId : String) :
    List (String × String) × Option (List String) :=
  if userId ≠ "" then
    let m2 := register m userId socketId
    (m2, some (objKeys m2))
  else (m, none)

/-- Lines 70–77 of `server.js`: the `disconnect` handler of a connection
whose handshake decoded `userId`.  It deletes `userSocketMap[userId]`
unconditionally — the closure never consults `socket.id`, so the handler
takes no socket-id argument — and broadcasts the new key set. -/
def onDisconnect (m : List (String × String)) (userId : String) :
    List (String × String) × Option (List String) :=
  if userId ≠ "" then
    let m2 := objDelete m userId
    (m2, some (objKeys m2))
  else (m, none)

/-- Payload extracted by `jwt.verify` from a bearer token. -/
structure JwtPayload where
  userId : String
deriving DecidableEq

/-- Lines 57–68 of `server.js`: the body of the `io.on("connection")`
callback up to and including registration.  `verify` abstracts the external
`jwt.verify(token, JWT_SECRET)`, which throws on an invalid, missing,
expired or malformed token; the source calls it with **no** try/catch, so
a thrown error propagates out of the handler (`Except.error`). -/
def connectionHandler (verify : String → Except String JwtPayload)
    (token socketId : String) (m : List (String × String)) :
    Except String (List (String × String) × Option (List String)) := do
  let decoded ← verify token
  let userId := decoded.userId
  pure (onConnection m userId socketId)

/-! ## Client: sync engine (`src/client/src/context/ChatContext.jsx`)

Timestamps (`createdAt`, `Date.now()`) are embedded as `Nat` epoch
milliseconds.  Each state-changing callback becomes a function from the
provider's state (the five `useState` cells) to a new state; the outcome
of an awaited axios request is passed in as an explicit argument, and
observable side effects (requests issued, `toast.error` calls) are
returned alongside the new state. -/

/-- A chat message as the client handles it. -/
structure Message where
  _id : String
  sender : String
  receiver : String
  text : String
  image : String
  createdAt : Nat
  seen : Bool
  deleted : Bool
deriving DecidableEq

/-- A sidebar user; `handleNewMessage` rewrites `lastMessageAt`. -/
structure User where
  _id : String
  lastMessageAt : Nat
deriving DecidableEq

/-- The five state cells of `ChatProvider` (lines 17–21); `selectedUserRef`
mirrors `selectedUser`, so one field stands for both. -/
structure ClientState where
  messages : List Message
  users : List User
  selectedUser : Option User
  unseenMessages : List (String × Nat)
  messageCache : List (String × List Message)
deriving DecidableEq

/-- The `data` object resolved by `POST /api/messages/send/:id`; its
`createdAt` may be absent (falsy), which the client patches over. -/
structure MsgPayload where
  _id : String
  sender : String
  receiver : String
  text : String
  image : String
  createdAt : Option Nat
  seen : Bool
  deleted : Bool
deriving DecidableEq

/-- `{ ...data, createdAt: data.createdAt || optimisticMessage.createdAt }`
(lines 117 and 126). -/
def confirmedMessage (data : MsgPayload) (fallback : Nat) : Message :=
  { _id := data._id, sender := data.sender, receiver := data.receiver,
    text := data.text, image := data.image,
    createdAt := data.createdAt.getD fallback,
    seen := data.seen, deleted := data.deleted }

/-- The `messageData` argument of `sendMessage`; `text`/`image` may be
absent, defaulted by `|| ""`. -/
structure MessageData where
  text : Option String
  image : Option String
deriving DecidableEq

/-- Line 84: `const tempId = Date.now().toString();`. -/
def tempIdOf (now : Nat) : String := Nat.repr now

/-- The tempIds synthesized by a session whose successive `Date.now()`
readings are `nows`. -/
def sessionTempIds (nows : List Nat) : List String := nows.map tempIdOf

/-- Lines 86–95: the provisional message. -/
def optimisticMessage (authUserId receiverId : String) (md : MessageData) (now : Nat) :
    Message :=
  { _id := tempIdOf now, sender := authUserId, receiver := receiverId,
    text := md.text.getD "", image := md.image.getD "",
    createdAt := now, seen := false, deleted := false }

/-- Lines 82 and 97–105 of `sendMessage`: bail out if no conversation is
open, otherwise prepend the provisional message to the live list and to
the cache entry of the open counterpart (`prev[selectedUser._id] || []`). -/
def sendOptimistic (st : ClientState) (authUserId : String) (md : MessageData) (now : Nat) :
    ClientState :=
  match st.selectedUser with
  | none => st
  | some su =>
      let om := optimisticMessage authUserId su._id md now
      { st with
        messages := om :: st.messages,
        messageCache :=
          objSet st.messageCache su._id (om :: (objGet st.messageCache su._id).getD []) }

/-- Lines 113–129 of `sendMessage` (the `await` succeeded): replace every
entry whose `_id` equals `tempId` by the confirmed message, in the live
list and in the cache entry of `suId`.  The cache update reads
`prev[selectedUser._id].map(...)` with no `|| []` fallback, so a missing
entry is a TypeError: `none`. -/
def sendReconcileOk (st : ClientState) (suId tempId : String) (data : MsgPayload)
    (fallback : Nat) : Option ClientState :=
  let st1 := { st with
    messages := st.messages.map
      (fun (m : Message) => if m._id = tempId then confirmedMessage data fallback else m) }
  match objGet st1.messageCache suId with
  | some entry =>
      some { st1 with
        messageCache := objSet st1.messageCache suId
          (entry.map (fun m => if m._id = tempId then confirmedMessage data fallback else m)) }
  | none => none

/-- Lines 130–143 of `sendMessage` (the `await` threw): drop every entry
whose `_id` equals `tempId` from the live list and from the cache entry of
`suId` (again `prev[selectedUser._id].filter(...)` without fallback), then
`toast.error`. -/
def sendRollback (st : ClientState) (suId tempId : String) : Option ClientState :=
  let st1 := { st with messages := st.messages.filter (fun m => m._id ≠ tempId) }
  match objGet st1.messageCache suId with
  | some entry =>
      some { st1 with
        messageCache := objSet st1.messageCache suId
          (entry.filter (fun m => m._id ≠ tempId)) }
  | none => none

/-- Outcome of `axios.get("/api/messages/users")`. -/
inductive UsersOutcome
  | thrown
  | resp (success : Bool) (users : List User) (unseen : List (String × Nat))
deriving DecidableEq

/-- Lines 33–43, `getUsers`: on success overwrite `users` and
`unseenMessages` (`data.unseenMessages || {}` arrives pre-defaulted in
`resp`); a thrown request only calls `toast.error`.  The `Bool` records
whether a toast was shown. -/
def getUsers (st : ClientState) : UsersOutcome → ClientState × Bool
  | .thrown => (st, true)
  | .resp true us un => ({ st with users := us, unseenMessages := un }, false)
  | .resp false _ _ => (st, false)

/-- Outcome of `axios.get("/api/messages/:userId")`. -/
inductive FetchOutcome
  | thrown
  | resp (success : Bool) (messages : List Message)
deriving DecidableEq

/-- The comparator of line 62, `(a, b) => new Date(b.createdAt) - new
Date(a.createdAt)`, as the "`a` may stay before `b`" test: the comparator
is non-positive exactly when `b.createdAt ≤ a.createdAt`. -/
def newestFirst (a b : Message) : Bool := b.createdAt ≤ a.createdAt

/-- Line 62: `data.messages.sort(...)` — stable sort, newest first. -/
def sortDesc (ms : List Message) : List Message :=
  ms.mergeSort newestFirst

/-- Lines 48–75, `getMessages(userId)`: a truthy cache entry is shown
immediately with the unseen counter zeroed and **no** request; otherwise
the live list is cleared, one fetch is issued, and on success the sorted
result populates the live list, the cache and zeroes the counter.  Result:
new state, number of fetch calls issued, whether `toast.error` ran. -/
def getMessages (st : ClientState) (userId : String) (outcome : FetchOutcome) :
    ClientState × Nat × Bool :=
  match objGet st.messageCache userId with
  | some cached =>
      ({ st with messages := cached,
                 unseenMessages := objSet st.unseenMessages userId 0 }, 0, false)
  | none =>
      let st1 := { st with messages := [] }
      match outcome with
      | .thrown => (st1, 1, true)
      | .resp true ms =>
          let sorted := sortDesc ms
          ({ st1 with
             messages := sorted,
             messageCache := objSet st1.messageCache userId sorted,
             unseenMessages := objSet st1.unseenMessages userId 0 }, 1, false)
      | .resp false _ => (st1, 1, false)

/-- Line 156ish: `{ ...m, deleted: true, text: "This message was deleted",
image: "" }`. -/
def tombstone (m : Message) : Message :=
  { m with deleted := true, text := "This message was deleted", image := "" }

/-- The tombstoning map applied by `deleteMessage` to a message list. -/
def tombstoneList (messageId : String) (l : List Message) : List Message :=
  l.map (fun m => if m._id = messageId then tombstone m else m)

/-- Lines 151–180, `deleteMessage(messageId)`: tombstone the matching
entry in the live list and — when a conversation is open and has a cache
entry — in that cache entry; the delete request itself is fire-and-forget
(a failure is only toasted, never rolled back), so it does not appear in
the state transition. -/
def deleteMessage (st : ClientState) (messageId : String) : ClientState :=
  let cache2 :=
    match st.selectedUser with
    | some su =>
        match objGet st.messageCache su._id with
        | some entry => objSet st.messageCache su._id (tombstoneList messageId entry)
        | none => st.messageCache
    | none => st.messageCache
  { st with messages := tombstoneList messageId st.messages, messageCache := cache2 }

/-- Lines 188–222, the `newMessage` socket handler: always refresh the
sidebar ordering; if the pushed message's sender or receiver is the open
counterpart, prepend it to the live list and that counterpart's cache
entry, issue the mark-seen request (the returned `Bool`) and zero that
counterpart's counter; otherwise bump the counter of the message's sender
(`(prev[newMessage.sender] || 0) + 1`). -/
def handleNewMessage (st : ClientState) (nm : Message) : ClientState × Bool :=
  let users2 := st.users.map (fun u =>
    if u._id = nm.sender ∨ u._id = nm.receiver
    then { u with lastMessageAt := nm.createdAt } else u)
  match st.selectedUser with
  | some cu =>
      if nm.sender = cu._id ∨ nm.receiver = cu._id then
        ({ st with
           users := users2,
           messages := nm :: st.messages,
           messageCache :=
             objSet st.messageCache cu._id (nm :: (objGet st.messageCache cu._id).getD []),
           unseenMessages := objSet st.unseenMessages cu._id 0 }, true)
      else
        ({ st with
           users := users2,
           unseenMessages := objSet st.unseenMessages nm.sender
             ((objGet st.unseenMessages nm.sender).getD 0 + 1) }, false)
  | none =>
      ({ st with
         users := users2,
         unseenMessages := objSet st.unseenMessages nm.sender
           ((objGet st.unseenMessages nm.sender).getD 0 + 1) }, false)

/-- Lines 224–228, the `messageDeleted` socket handler: swap the matching
live-list entry for the pushed tombstoned message; nothing else. -/
def handleDelete (st : ClientState) (deletedMsg : Message) : ClientState :=
  { st with
    messages := st.messages.map (fun m => if m._id = deletedMsg._id then deletedMsg else m) }

/-! ### Concrete fixtures used to instantiate the theorems -/

/-- A verifier behaving like `jwt.verify` on a token it rejects. -/
def badVerify : String → Except String JwtPayload :=
  fun _ => Except.error "jwt malformed"

/-- Counterpart `B`. -/
def suB : User := { _id := "B", lastMessageAt := 0 }

/-- A message already in the conversation with `B`. -/
def msgA : Message :=
  { _id := "m1", sender := "A", receiver := "B", text := "old", image := "",
    createdAt := 50, seen := true, deleted := false }

/-- An inbound push from counterpart `C`. -/
def msgFromC : Message :=
  { _id := "m9", sender := "C", receiver := "A", text := "yo", image := "",
    createdAt := 70, seen := false, deleted := false }

/-- A tombstoned copy of `msgA`. -/
def msgATomb : Message :=
  { _id := "m1", sender := "A", receiver := "B", text := "This message was deleted",
    image := "", createdAt := 50, seen := true, deleted := true }

/-- The server response confirming a send (its `createdAt` absent). -/
def payload1 : MsgPayload :=
  { _id := "srv1", sender := "A", receiver := "B", text := "hi", image := "",
    createdAt := none, seen := false, deleted := false }

/-- `messageData` for a plain text send. -/
def mdHi : MessageData := { text := some "hi", image := none }

/-- A client state with the conversation with `B` open and cached. -/
def stOpenB : ClientState :=
  { messages := [msgA], users := [suB], selectedUser := some suB,
    unseenMessages := [("B", 2)], messageCache := [("B", [msgA])] }

/-- A client state with no conversation open and 4 unseen from `C`. -/
def stClosed : ClientState :=
  { messages := [msgA], users := [], selectedUser := none,
    unseenMessages := [("C", 4)], messageCache := [] }

/-! ### Decimal string representation

`tempIdOf` is `Nat.repr`, whose core is the fuelled `Nat.toDigitsCore`.
To reason about it we show it equals a structurally recursive
most-significant-digit-first rendering and build a left inverse. -/

/-- Decimal digits of `n`, most significant first. -/
def digitsMSF (n : Nat) : List Char :=
  if _ : n < 10 then [Nat.digitChar n]
  else digitsMSF (n / 10) ++ [Nat.digitChar (n % 10)]
decreasing_by exact Nat.div_lt_self (by omega) (by omega)

/-- Numeric value of a decimal digit character. -/
def decDigitVal (c : Char) : Nat := c.toNat - 48

/-- Value of a most-significant-first decimal digit string. -/
def decVal (l : List Char) : Nat :=
  l.foldl (fun acc c => acc * 10 + decDigitVal c) 0

theorem toDigitsCore_eq_digitsMSF :
    ∀ (f n : Nat) (l : List Char), n < f →
      Nat.toDigitsCore 10 f n l = digitsMSF n ++ l := by
  intro f
  induction f with
  | zero => intro n l h; omega
  | succ f ih =>
    intro n l h
    by_cases h10 : n / 10 = 0
    · have hn : n < 10 := by omega
      have hmod : n % 10 = n := by omega
      simp only [Nat.toDigitsCore, h10, if_pos rfl, hmod]
      rw [digitsMSF, dif_pos hn]
      simp
    · have hn : ¬ n < 10 := by omega
      have hlt : n / 10 < f := by omega
      have e : digitsMSF n = digitsMSF (n / 10) ++ [Nat.digitChar (n % 10)] := by
        rw [digitsMSF]
        exact dif_neg hn
      simp only [Nat.toDigitsCore, if_neg h10]
      rw [ih (n / 10) (Nat.digitChar (n % 10) :: l) hlt, e]
      simp

theorem toDigits_eq_digitsMSF (n : Nat) : Nat.toDigits 10 n = digitsMSF n := by
  have h := toDigitsCore_eq_digitsMSF (n + 1) n [] (Nat.lt_succ_self n)
  simpa [Nat.toDigits] using h

theorem decDigitVal_digitChar : ∀ d, d < 10 → decDigitVal (Nat.digitChar d) = d := by
  decide

theorem foldl_digitsMSF (n : Nat) :
    ∀ acc : Nat,
      (digitsMSF n).foldl (fun acc c => acc * 10 + decDigitVal c) acc =
        acc * 10 ^ (digitsMSF n).length + n := by
  induction n using Nat.strong_induction_on with
  | _ n ih =>
    intro acc
    by_cases hn : n < 10
    · rw [digitsMSF, dif_pos hn]
      simp [List.foldl, decDigitVal_digitChar n hn]
    · rw [digitsMSF, dif_neg hn]
      have hdiv : n / 10 < n := Nat.div_lt_self (by omega) (by omega)
      rw [List.foldl_append, ih (n / 10) hdiv acc]
      simp only [List.foldl, List.length_append, List.length_singleton]
      have hd : decDigitVal (Nat.digitChar (n % 10)) = n % 10 :=
        decDigitVal_digitChar (n % 10) (Nat.mod_lt n (by omega))
      rw [hd, pow_succ]
      have : n / 10 * 10 + n % 10 = n := by omega
      ring_nf
      omega

theorem decVal_digitsMSF (n : Nat) : decVal (digitsMSF n) = n := by
  simpa [decVal] using foldl_digitsMSF n 0

theorem digitsMSF_injective : Function.Injective digitsMSF := by
  intro a b h
  have := congrArg decVal h
  rwa [decVal_digitsMSF, decVal_digitsMSF] at this

theorem tempIdOf_injective : Function.Injective tempIdOf := by
  intro a b h
  apply digitsMSF_injective
  have h2 : (Nat.toDigits 10 a).asString = (Nat.toDigits 10 b).asString := h
  have h3 : (Nat.toDigits 10 a) = (Nat.toDigits 10 b) :=
    congrArg String.data h2
  rwa [toDigits_eq_digitsMSF, toDigits_eq_digitsMSF] at h3

/-! ### Association-list lemmas -/

theorem objGet_objSet_self {α : Type} (m : List (String × α)) (k : String) (v : α) :
    objGet (objSet m k v) k = some v := by
  induction m with
  | nil => simp [objSet, objGet]
  | cons p rest ih =>
    by_cases hp : p.1 = k
    · simp [objSet, objGet, hp]
    · simpa [objSet, objGet, hp] using ih

theorem objGet_objSet_other {α : Type} (m : List (String × α)) (k k' : String) (v : α)
    (hne : k' ≠ k) : objGet (objSet m k v) k' = objGet m k' := by
  have h1 : ¬ k = k' := fun h => hne h.symm
  induction m with
  | nil => simp [objSet, objGet, h1]
  | cons p rest ih =>
    by_cases hp : p.1 = k
    · have h2 : ¬ p.1 = k' := by rw [hp]; exact h1
      simp only [objSet, if_pos hp, objGet, if_neg h1, if_neg h2]
    · by_cases hp' : p.1 = k'
      · simp only [objSet, if_neg hp, objGet, if_pos hp']
      · simp only [objSet, if_neg hp, objGet, if_neg hp']
        exact ih

theorem objSet_objSet_self {α : Type} (m : List (String × α)) (k : String) (v v' : α) :
    objSet (objSet m k v) k v' = objSet m k v' := by
  induction m with
  | nil => simp [objSet]
  | cons p rest ih =>
    by_cases hp : p.1 = k
    · simp [objSet, hp]
    · simp [objSet, hp, ih]

theorem objGet_objDelete_self {α : Type} (m : List (String × α)) (k : String) :
    objGet (objDelete m k) k = none := by
  induction m with
  | nil => simp [objDelete, objGet]
  | cons p rest ih =>
    by_cases hp : p.1 = k
    · simpa [objDelete, hp] using ih
    · simpa [objDelete, objGet, hp] using ih

theorem objGet_objDelete_other {α : Type} (m : List (String × α)) (k k' : String)
    (hne : k' ≠ k) : objGet (objDelete m k) k' = objGet m k' := by
  induction m with
  | nil => simp [objDelete]
  | cons p rest ih =>
    by_cases hp : p.1 = k
    · have h2 : ¬ p.1 = k' := by rw [hp]; exact fun h => hne h.symm
      simp only [objDelete, if_pos hp, objGet, if_neg h2]
      exact ih
    · by_cases hp' : p.1 = k'
      · simp only [objDelete, if_neg hp, objGet, if_pos hp']
      · simp only [objDelete, if_neg hp, objGet, if_neg hp']
        exact ih

theorem mem_objKeys_iff_isSome {α : Type} (m : List (String × α)) (k : String) :
    k ∈ objKeys m ↔ (objGet m k).isSome := by
  induction m with
  | nil => simp [objKeys, objGet]
  | cons p rest ih =>
    by_cases hp : p.1 = k
    · simp [objKeys, objGet, hp]
    · have hk : ¬ k = p.1 := fun h => hp h.symm
      simp only [objKeys, List.map_cons, List.mem_cons, objGet, if_neg hp]
      simp only [objKeys] at ih
      simp [hk, ih]

theorem objKeys_objSet {α : Type} (m : List (String × α)) (k k' : String) (v : α) :
    k' ∈ objKeys (objSet m k v) ↔ (k' = k ∨ k' ∈ objKeys m) := by
  by_cases hk : k' = k
  · subst hk
    simp [mem_objKeys_iff_isSome, objGet_objSet_self]
  · simp [mem_objKeys_iff_isSome, objGet_objSet_other m k k' v hk, hk]

theorem objKeys_objDelete {α : Type} (m : List (String × α)) (k k' : String) :
    k' ∈ objKeys (objDelete m k) ↔ (k' ∈ objKeys m ∧ k' ≠ k) := by
  by_cases hk : k' = k
  · subst hk
    simp [mem_objKeys_iff_isSome, objGet_objDelete_self]
  · simp [mem_objKeys_iff_isSome, objGet_objDelete_other m k k' hk, hk]

/-! ### List helper lemmas for the reconciliation proofs -/

theorem map_replace_eq_self {l : List Message} {tid : String} (c : Message)
    (h : ∀ m ∈ l, m._id ≠ tid) :
    l.map (fun m => if m._id = tid then c else m) = l := by
  induction l with
  | nil => rfl
  | cons x xs ih =>
    have hx : x._id ≠ tid := h x (by simp)
    have ih2 := ih (fun m hm => h m (List.mem_cons_of_mem x hm))
    simp [hx, ih2]

theorem filter_ne_eq_self {l : List Message} {tid : String}
    (h : ∀ m ∈ l, m._id ≠ tid) :
    l.filter (fun m => m._id ≠ tid) = l := by
  rw [List.filter_eq_self]
  intro a ha
  simpa using h a ha

theorem tombstone_eq_self {m : Message} (hd : m.deleted = true)
    (ht : m.text = "This message was deleted") (hi : m.image = "") :
    tombstone m = m := by
  cases m
  simp only [tombstone] at *
  simp_all

theorem tombstoneList_fixed {l : List Message} {mid : String}
    (h : ∀ m ∈ l, m._id = mid →
      m.deleted = true ∧ m.text = "This message was deleted" ∧ m.image = "") :
    tombstoneList mid l = l := by
  induction l with
  | nil => rfl
  | cons x xs ih =>
    simp only [tombstoneList, List.map_cons, List.cons.injEq]
    constructor
    · by_cases hx : x._id = mid
      · rw [if_pos hx]
        obtain ⟨h1, h2, h3⟩ := h x (by simp) hx
        exact tombstone_eq_self h1 h2 h3
      · exact if_neg hx
    · exact ih (fun m hm => h m (List.mem_cons_of_mem x hm))

theorem tombstoneList_idem (mid : String) (l : List Message) :
    tombstoneList mid (tombstoneList mid l) = tombstoneList mid l := by
  apply tombstoneList_fixed
  intro m hm hid
  simp only [tombstoneList, List.mem_map] at hm
  obtain ⟨m0, -, rfl⟩ := hm
  by_cases h0 : m0._id = mid
  · simp [h0, tombstone]
  · simp only [if_neg h0] at hid ⊢
    exact absurd hid h0

/-! ## Claim theorems -/

/-- Claim C1, counterexample: in the source the `disconnect` handler
deletes `userSocketMap[userId]` without comparing the stored socket id
with its own, so after register(id,h1); register(id,h2); the disconnect
of the stale h1 connection, `id` is **not** still present — refuting the
claim at this concrete run (the registry held h2 just before). -/
theorem C1_stale_deregister_counterexample :
    objGet (onConnection (onConnection [] "id" "h1").1 "id" "h2").1 "id" = some "h2" ∧
    objGet (onDisconnect (onConnection (onConnection [] "id" "h1").1 "id" "h2").1 "id").1 "id"
      = none := by
  decide

/-- Claim C1, amended: the disconnect handler removes the registry entry
for its `userId` unconditionally (it never consults the stored handle), so
after register(id,h1); register(id,h2); deregister triggered by h1's
disconnect, the identity is absent from the registry. -/
theorem C1_deregister_unconditional (m : List (String × String)) (userId h1 h2 : String)
    (hu : userId ≠ "") :
    objGet (onDisconnect (onConnection (onConnection m userId h1).1 userId h2).1 userId).1 userId
      = none := by
  simp [onConnection, onDisconnect, register, hu, objGet_objDelete_self]

/-- Witness for C1: the amended theorem applied to the two-registration
race on an initially empty registry. -/
theorem C1_deregister_unconditional_witness :
    ("id" : String) ≠ "" ∧
    objGet (onDisconnect (onConnection (onConnection [] "id" "h1").1 "id" "h2").1 "id").1 "id"
      = none :=
  ⟨by decide, C1_deregister_unconditional [] "id" "h1" "h2" (by decide)⟩

/-- Claim C4: the connection handler calls `jwt.verify` with **no**
try/catch (lines 57–59 of `server.js`), so when verification throws the
exception propagates out of the handler instead of being caught locally —
in Node this is an uncaught exception that kills the process.  The
theorem exhibits the divergence: any verifier error surfaces as the
handler's own result, before any registry mutation or broadcast. -/
theorem C4_auth_error_propagates (verify : String → Except String JwtPayload)
    (token socketId : String) (m : List (String × String)) (e : String)
    (hv : verify token = Except.error e) :
    connectionHandler verify token socketId m = Except.error e := by
  simp [connectionHandler, hv]

/-- Witness for C4: a malformed token against a rejecting verifier. -/
theorem C4_auth_error_propagates_witness :
    badVerify "garbage" = Except.error "jwt malformed" ∧
    connectionHandler badVerify "garbage" "sock1" [("u1", "s1")]
      = Except.error "jwt malformed" :=
  ⟨rfl, C4_auth_error_propagates badVerify "garbage" "sock1" [("u1", "s1")]
    "jwt malformed" rfl⟩

/-- Claim C8, counterexample: the connection handler's entire output —
updated map and broadcast — is identical whether the previous handle
registered for `id` was h1 or h0, even though those previous handles
differ.  The bare assignment of line 65 never reads the old entry, so no
caller can obtain the previous handle from anything the registration does:
the claim's "returns the previous handle if one existed" fails at this
concrete pair of runs. -/
theorem C8_previous_handle_counterexample :
    onConnection [("id", "h1")] "id" "h2" = onConnection [("id", "h0")] "id" "h2" ∧
    objGet [("id", "h1")] "id" ≠ objGet [("id", "h0")] "id" := by
  decide

/-- Claim C8, amended: registration overwrites any existing entry for the
identity unconditionally (leaving every other entry alone) but discards
the previous handle — the handler's output does not depend on it — and
both the registration and the deregistration paths broadcast the full
current key set of the registry (every registered identity, not a
delta). -/
theorem C8_register_overwrite_broadcast (m : List (String × String))
    (userId socketId : String) (hu : userId ≠ "") :
    objGet (onConnection m userId socketId).1 userId = some socketId ∧
    (∀ k, k ≠ userId → objGet (onConnection m userId socketId).1 k = objGet m k) ∧
    (∀ h0 h1, onConnection (objSet m userId h0) userId socketId
        = onConnection (objSet m userId h1) userId socketId) ∧
    (onConnection m userId socketId).2 = some (objKeys (onConnection m userId socketId).1) ∧
    (∀ k, k ∈ objKeys (onConnection m userId socketId).1 ↔ (k = userId ∨ k ∈ objKeys m)) ∧
    (onDisconnect m userId).2 = some (objKeys (onDisconnect m userId).1) ∧
    (∀ k, k ∈ objKeys (onDisconnect m userId).1 ↔ (k ∈ objKeys m ∧ k ≠ userId)) := by
  refine ⟨?_, ?_, ?_, ?_, ?_, ?_, ?_⟩
  · simp [onConnection, register, hu, objGet_objSet_self]
  · intro k hk
    simp only [onConnection, register, hu, ne_eq, not_false_iff, if_true]
    exact objGet_objSet_other m userId k socketId hk
  · intro h0 h1
    simp [onConnection, register, hu, objSet_objSet_self]
  · simp [onConnection, hu]
  · intro k
    simp only [onConnection, register, hu, ne_eq, not_false_iff, if_true]
    exact objKeys_objSet m userId k socketId
  · simp [onDisconnect, hu]
  · intro k
    simp only [onDisconnect, hu, ne_eq, not_false_iff, if_true]
    exact objKeys_objDelete m userId k

/-- Witness for C8: overwriting `id`'s handle h1 with h2 in a registry
that also holds `x`. -/
theorem C8_register_overwrite_broadcast_witness :
    ("id" : String) ≠ "" ∧
    objGet (onConnection [("id", "h1"), ("x", "h9")] "id" "h2").1 "id" = some "h2" ∧
    (onConnection [("id", "h1"), ("x", "h9")] "id" "h2").2
      = some (objKeys (onConnection [("id", "h1"), ("x", "h9")] "id" "h2").1) := by
  have h := C8_register_overwrite_broadcast [("id", "h1"), ("x", "h9")] "id" "h2" (by decide)
  exact ⟨by decide, h.1, h.2.2.2.1⟩

/-- Claim C2: with a conversation open and the synthesized tempId fresh
for the session, the provisional message sits at position 0 of both the
live list and the open counterpart's cache entry before the request
resolves; on success exactly the tempId entry is replaced in place by the
server-confirmed message in both (no duplicate, every other entry and the
order untouched); on failure the tempId entry is gone from both and every
other entry survives. -/
theorem C2_optimistic_send_reconcile (st : ClientState) (su : User) (authUserId : String)
    (md : MessageData) (now : Nat) (data : MsgPayload)
    (hsel : st.selectedUser = some su)
    (hfresh : ∀ m ∈ st.messages, m._id ≠ tempIdOf now)
    (hfreshc : ∀ m ∈ (objGet st.messageCache su._id).getD [], m._id ≠ tempIdOf now) :
    (sendOptimistic st authUserId md now).messages
        = optimisticMessage authUserId su._id md now :: st.messages ∧
    objGet (sendOptimistic st authUserId md now).messageCache su._id
        = some (optimisticMessage authUserId su._id md now
                  :: (objGet st.messageCache su._id).getD []) ∧
    (optimisticMessage authUserId su._id md now)._id = tempIdOf now ∧
    sendReconcileOk (sendOptimistic st authUserId md now) su._id (tempIdOf now) data now
        = some { sendOptimistic st authUserId md now with
                 messages := confirmedMessage data now :: st.messages,
                 messageCache :=
                   objSet (sendOptimistic st authUserId md now).messageCache su._id
                     (confirmedMessage data now :: (objGet st.messageCache su._id).getD []) } ∧
    sendRollback (sendOptimistic st authUserId md now) su._id (tempIdOf now)
        = some { sendOptimistic st authUserId md now with
                 messages := st.messages,
                 messageCache :=
                   objSet (sendOptimistic st authUserId md now).messageCache su._id
                     ((objGet st.messageCache su._id).getD []) } := by
  have hs : sendOptimistic st authUserId md now =
      { st with
        messages := optimisticMessage authUserId su._id md now :: st.messages,
        messageCache := objSet st.messageCache su._id
          (optimisticMessage authUserId su._id md now
            :: (objGet st.messageCache su._id).getD []) } := by
    simp [sendOptimistic, hsel]
  have hid : (optimisticMessage authUserId su._id md now)._id = tempIdOf now := rfl
  have hmap : (optimisticMessage authUserId su._id md now :: st.messages).map
      (fun m => if m._id = tempIdOf now then confirmedMessage data now else m)
      = confirmedMessage data now :: st.messages := by
    rw [List.map_cons, if_pos hid, map_replace_eq_self _ hfresh]
  have hcmap : ((optimisticMessage authUserId su._id md now
        :: (objGet st.messageCache su._id).getD [])).map
      (fun m => if m._id = tempIdOf now then confirmedMessage data now else m)
      = confirmedMessage data now :: (objGet st.messageCache su._id).getD [] := by
    rw [List.map_cons, if_pos hid, map_replace_eq_self _ hfreshc]
  have hcond : ¬ (decide ((optimisticMessage authUserId su._id md now)._id ≠ tempIdOf now)
      = true) := by simp [hid]
  have hfil : (optimisticMessage authUserId su._id md now :: st.messages).filter
      (fun m => m._id ≠ tempIdOf now) = st.messages := by
    rw [List.filter_cons, if_neg hcond]
    exact filter_ne_eq_self hfresh
  have hcfil : ((optimisticMessage authUserId su._id md now
        :: (objGet st.messageCache su._id).getD [])).filter
      (fun m => m._id ≠ tempIdOf now) = (objGet st.messageCache su._id).getD [] := by
    rw [List.filter_cons, if_neg hcond]
    exact filter_ne_eq_self hfreshc
  refine ⟨by rw [hs], by rw [hs]; exact objGet_objSet_self _ _ _, hid, ?_, ?_⟩
  · rw [hs]
    simp only [sendReconcileOk, objGet_objSet_self]
    rw [hmap, hcmap]
  · rw [hs]
    simp only [sendRollback, objGet_objSet_self]
    rw [hfil, hcfil]

/-- Witness for C2: sending "hi" to the open, cached counterpart `B`
at millisecond 111. -/
theorem C2_optimistic_send_reconcile_witness :
    stOpenB.selectedUser = some suB ∧
    (∀ m ∈ stOpenB.messages, m._id ≠ tempIdOf 111) ∧
    (sendOptimistic stOpenB "A" mdHi 111).messages
        = optimisticMessage "A" suB._id mdHi 111 :: stOpenB.messages ∧
    sendReconcileOk (sendOptimistic stOpenB "A" mdHi 111) suB._id (tempIdOf 111) payload1 111
        = some { sendOptimistic stOpenB "A" mdHi 111 with
                 messages := confirmedMessage payload1 111 :: stOpenB.messages,
                 messageCache :=
                   objSet (sendOptimistic stOpenB "A" mdHi 111).messageCache suB._id
                     (confirmedMessage payload1 111 :: (objGet stOpenB.messageCache suB._id).getD []) } ∧
    sendRollback (sendOptimistic stOpenB "A" mdHi 111) suB._id (tempIdOf 111)
        = some { sendOptimistic stOpenB "A" mdHi 111 with
                 messages := stOpenB.messages,
                 messageCache :=
                   objSet (sendOptimistic stOpenB "A" mdHi 111).messageCache suB._id
                     ((objGet stOpenB.messageCache suB._id).getD []) } := by
  have h := C2_optimistic_send_reconcile stOpenB suB "A" mdHi 111 payload1 rfl
    (by decide) (by decide)
  exact ⟨rfl, by decide, h.1, h.2.2.2.1, h.2.2.2.2⟩

/-- Claim C3: an inbound `newMessage` whose conversation is not the open
one increments the unseen counter of the message's sender by exactly 1
and leaves the live message list untouched; and opening a conversation —
through the cache-hit path or a successful fetch — resets that
counterpart's counter to exactly 0. -/
theorem C3_unseen_counters (st : ClientState) (nm : Message)
    (hnotopen : ∀ cu, st.selectedUser = some cu →
      nm.sender ≠ cu._id ∧ nm.receiver ≠ cu._id) :
    (objGet (handleNewMessage st nm).1.unseenMessages nm.sender
        = some ((objGet st.unseenMessages nm.sender).getD 0 + 1) ∧
     (handleNewMessage st nm).1.messages = st.messages) ∧
    (∀ (st2 : ClientState) (c : String) (outcome : FetchOutcome),
        (objGet st2.messageCache c).isSome →
        objGet (getMessages st2 c outcome).1.unseenMessages c = some 0) ∧
    (∀ (st2 : ClientState) (c : String) (ms : List Message),
        objGet st2.messageCache c = none →
        objGet (getMessages st2 c (FetchOutcome.resp true ms)).1.unseenMessages c
          = some 0) := by
  refine ⟨?_, ?_, ?_⟩
  · cases hsel : st.selectedUser with
    | none => simp [handleNewMessage, hsel, objGet_objSet_self]
    | some cu =>
        obtain ⟨h1, h2⟩ := hnotopen cu hsel
        simp [handleNewMessage, hsel, h1, h2, objGet_objSet_self]
  · intro st2 c outcome hsome
    obtain ⟨cached, hc⟩ := Option.isSome_iff_exists.mp hsome
    simp [getMessages, hc, objGet_objSet_self]
  · intro st2 c ms hnone
    simp [getMessages, hnone, objGet_objSet_self]

/-- Witness for C3: a push from `C` while no conversation is open takes
the counter from 4 to 5 and the live list stays put. -/
theorem C3_unseen_counters_witness :
    (∀ cu, stClosed.selectedUser = some cu →
      msgFromC.sender ≠ cu._id ∧ msgFromC.receiver ≠ cu._id) ∧
    objGet (handleNewMessage stClosed msgFromC).1.unseenMessages msgFromC.sender
      = some 5 ∧
    (handleNewMessage stClosed msgFromC).1.messages = stClosed.messages := by
  have h := C3_unseen_counters stClosed msgFromC (by simp [stClosed])
  refine ⟨by simp [stClosed], ?_, h.1.2⟩
  rw [h.1.1]
  decide

/-- Claim C5, counterexample: `getMessages` runs `setMessages([])` before
the fetch, so a failed open of the non-cached conversation "u2" leaves the
live list empty — not at its last known-good value `[msgA]`. -/
theorem C5_fetch_failure_counterexample :
    (getMessages stClosed "u2" FetchOutcome.thrown).1.messages = [] ∧
    stClosed.messages ≠ [] := by
  decide

/-- Claim C5, amended: a failed conversation open (cache miss) is surfaced
to the user and leaves the cache, the unseen counters and the user list at
their last known-good values, but the live message list has already been
cleared to `[]` before the fetch and stays empty; a failed partner-list
fetch is surfaced and leaves the whole state unchanged. -/
theorem C5_fetch_failure_amended (st : ClientState) (uid : String)
    (hmiss : objGet st.messageCache uid = none) :
    ((getMessages st uid FetchOutcome.thrown).1.messages = [] ∧
     (getMessages st uid FetchOutcome.thrown).1.messageCache = st.messageCache ∧
     (getMessages st uid FetchOutcome.thrown).1.unseenMessages = st.unseenMessages ∧
     (getMessages st uid FetchOutcome.thrown).1.users = st.users ∧
     (getMessages st uid FetchOutcome.thrown).2.2 = true) ∧
    (∀ st2 : ClientState, getUsers st2 UsersOutcome.thrown = (st2, true)) := by
  refine ⟨?_, fun st2 => rfl⟩
  simp [getMessages, hmiss]

/-- Witness for C5: the amended theorem at the concrete failed open. -/
theorem C5_fetch_failure_amended_witness :
    objGet stClosed.messageCache "u2" = none ∧
    (getMessages stClosed "u2" FetchOutcome.thrown).1.messageCache
      = stClosed.messageCache ∧
    (getMessages stClosed "u2" FetchOutcome.thrown).2.2 = true := by
  have h := C5_fetch_failure_amended stClosed "u2" rfl
  exact ⟨rfl, h.1.2.1, h.1.2.2.2.2⟩

/-- Claim C6: opening a conversation whose counterpart has a cache entry
issues zero fetches, populates the live list from the cache and zeroes the
counter, whatever a fetch would have returned; opening a non-cached one
issues exactly one fetch whose successful result is sorted newest-first
(a permutation of the response, pairwise descending `createdAt`) before
populating the live list and the cache. -/
theorem C6_cache_first_open (st : ClientState) (uid : String) (cached : List Message)
    (hhit : objGet st.messageCache uid = some cached) :
    (∀ outcome, getMessages st uid outcome =
        ({ st with messages := cached,
                   unseenMessages := objSet st.unseenMessages uid 0 }, 0, false)) ∧
    (∀ (st2 : ClientState) (uid2 : String) (ms : List Message),
        objGet st2.messageCache uid2 = none →
        getMessages st2 uid2 (FetchOutcome.resp true ms)
          = ({ st2 with messages := sortDesc ms,
                        messageCache := objSet st2.messageCache uid2 (sortDesc ms),
                        unseenMessages := objSet st2.unseenMessages uid2 0 }, 1, false)) ∧
    (∀ ms : List Message,
        List.Pairwise (fun a b : Message => b.createdAt ≤ a.createdAt) (sortDesc ms) ∧
        (sortDesc ms).Perm ms) := by
  refine ⟨fun outcome => by simp [getMessages, hhit], ?_, ?_⟩
  · intro st2 uid2 ms hm
    simp [getMessages, hm]
  · intro ms
    constructor
    · have htrans : ∀ a b c : Message, newestFirst a b → newestFirst b c → newestFirst a c :=
        fun a b c hab hbc => by
          simp only [newestFirst, decide_eq_true_eq] at *
          omega
      have htotal : ∀ a b : Message, newestFirst a b || newestFirst b a :=
        fun a b => by
          simp only [newestFirst, Bool.or_eq_true, decide_eq_true_eq]
          omega
      have h := List.sorted_mergeSort htrans htotal ms
      exact h.imp (fun hab => by simpa [newestFirst] using hab)
    · exact List.mergeSort_perm ms newestFirst

/-- Witness for C6: opening cached `B` fetches nothing even when the
request would have thrown. -/
theorem C6_cache_first_open_witness :
    objGet stOpenB.messageCache "B" = some [msgA] ∧
    getMessages stOpenB "B" FetchOutcome.thrown
      = ({ stOpenB with messages := [msgA],
                        unseenMessages := objSet stOpenB.unseenMessages "B" 0 }, 0, false) := by
  have h := C6_cache_first_open stOpenB "B" [msgA] rfl
  exact ⟨rfl, h.1 FetchOutcome.thrown⟩

/-- Claim C7: the local tombstone transformation of `deleteMessage` is
idempotent — on a list whose matching entry is already tombstoned it is
the identity (text and image keep the tombstone values), and applying it
twice always equals applying it once. -/
theorem C7_tombstone_idempotent (l : List Message) (mid : String)
    (h : ∀ m ∈ l, m._id = mid →
      m.deleted = true ∧ m.text = "This message was deleted" ∧ m.image = "") :
    tombstoneList mid l = l ∧
    ∀ (l2 : List Message) (mid2 : String),
      tombstoneList mid2 (tombstoneList mid2 l2) = tombstoneList mid2 l2 :=
  ⟨tombstoneList_fixed h, fun l2 mid2 => tombstoneList_idem mid2 l2⟩

/-- Witness for C7: re-tombstoning the already tombstoned `msgATomb`. -/
theorem C7_tombstone_idempotent_witness :
    (∀ m ∈ [msgATomb], m._id = "m1" →
      m.deleted = true ∧ m.text = "This message was deleted" ∧ m.image = "") ∧
    tombstoneList "m1" [msgATomb] = [msgATomb] :=
  ⟨by decide, (C7_tombstone_idempotent [msgATomb] "m1" (by decide)).1⟩

/-- Claim C9, counterexample: `tempId` is `Date.now().toString()`, so two
sends in the same millisecond (two invocations, both reading 5) synthesize
the **same** tempId — the session's tempIds are not pairwise distinct. -/
theorem C9_tempId_collision_counterexample :
    sessionTempIds [5, 5] = ["5", "5"] ∧
    ¬ List.Pairwise (fun a b : String => a ≠ b) (sessionTempIds [5, 5]) := by
  decide

/-- Claim C9, amended: tempIds of two send invocations are distinct
provided their `Date.now()` readings differ; in particular a session whose
readings are pairwise distinct (e.g. a strictly monotonic clock) gets
pairwise-distinct tempIds. -/
theorem C9_tempId_unique_distinct_times (t1 t2 : Nat) (h : t1 ≠ t2) :
    tempIdOf t1 ≠ tempIdOf t2 ∧
    ∀ nows : List Nat, nows.Pairwise (fun a b => a ≠ b) →
      (sessionTempIds nows).Pairwise (fun a b => a ≠ b) := by
  refine ⟨fun hc => h (tempIdOf_injective hc), ?_⟩
  intro nows hp
  rw [sessionTempIds, List.pairwise_map]
  exact hp.imp (fun hab hc => hab (tempIdOf_injective hc))

/-- Witness for C9: milliseconds 5 and 7 give distinct tempIds. -/
theorem C9_tempId_unique_distinct_times_witness :
    (5 : Nat) ≠ 7 ∧ tempIdOf 5 ≠ tempIdOf 7 :=
  ⟨by decide, (C9_tempId_unique_distinct_times 5 7 (by decide)).1⟩

/-- Claim C10: the `messageDeleted` handler rewrites only the live message
list — each entry whose id matches the pushed message is swapped for it,
positions and length preserved — while the users, the whole message cache
(which may thus keep the pre-tombstone copy until the next fetch), the
unseen counters and the selected user are untouched. -/
theorem C10_handleDelete_frame (st : ClientState) (d : Message) :
    (handleDelete st d).users = st.users ∧
    (handleDelete st d).messageCache = st.messageCache ∧
    (handleDelete st d).unseenMessages = st.unseenMessages ∧
    (handleDelete st d).selectedUser = st.selectedUser ∧
    (handleDelete st d).messages.length = st.messages.length ∧
    ∀ i : Nat, (handleDelete st d).messages[i]?
      = (st.messages[i]?).map (fun m => if m._id = d._id then d else m) := by
  refine ⟨rfl, rfl, rfl, rfl, by simp [handleDelete], fun i => ?_⟩
  simp [handleDelete, List.getElem?_map]

end MernChat
